import Mathlib

/-!
Shallow embedding of the Uber trip analysis dashboard (src/app.py).

Timestamps are modelled as natural numbers of seconds since the Unix epoch;
a missing timestamp (pandas NaT) is `none`.  The pandas accessor
`Series.dt.date` maps a timestamp to its calendar date, modelled as the day
number `t / 86400`.  Monetary and distance values are modelled as rationals
(`Rat`): every concrete value appearing in the claims is exactly
representable in both float32 and float64, so rational arithmetic agrees
with the floating arithmetic of the source on these inputs.  The pandas
mean of an empty column is NaN; NaN as the "no data available" result is
modelled as `none` of an `Option Rat`.
-/

/-- Seconds in one calendar day. -/
def secondsPerDay : Nat := 86400

/-- Calendar date (day number) of a timestamp, the model of `.dt.date`. -/
def tsDate (t : Nat) : Nat := t / secondsPerDay

/-- One row of the trip table, with the five columns read by the dashboard
(src/app.py lines 21-24).  `pickup`/`dropoff` model `pickup_datetime` /
`dropoff_datetime`; `none` is a missing value (NaT). -/
structure TripRecord where
  pickup : Option Nat
  dropoff : Option Nat
  trip_miles : Rat
  base_passenger_fare : Rat
  dispatching_base_num : String
  deriving DecidableEq

/-- The row mask of src/app.py lines 36-37 and 149-150:
`(df['pickup_datetime'].dt.date >= start_date) & (df['pickup_datetime'].dt.date <= end_date)`.
Both comparisons evaluate to `False` on a missing (NaT) timestamp, so the
conjunction is `false` when `pickup` is `none`. -/
def pickupInRange (start_date end_date : Nat) (r : TripRecord) : Bool :=
  match r.pickup with
  | some t => decide (start_date ≤ tsDate t) && decide (tsDate t ≤ end_date)
  | none => false

/-- `filter_data` of src/app.py lines 35-38: `df[mask]` keeps, in order, the
rows whose pickup calendar date lies in the inclusive interval. -/
def filter_data (df : List TripRecord) (start_date end_date : Nat) : List TripRecord :=
  df.filter (pickupInRange start_date end_date)

/-- Minimum of a list of naturals, `none` on the empty list (the model of a
pandas `Series.min()`, which skips NaT values — it is applied below to the
list of present timestamps only). -/
def natListMin : List Nat → Option Nat
  | [] => none
  | x :: xs =>
    match natListMin xs with
    | none => some x
    | some m => some (min x m)

/-- Maximum of a list of naturals, `none` on the empty list. -/
def natListMax : List Nat → Option Nat
  | [] => none
  | x :: xs =>
    match natListMax xs with
    | none => some x
    | some m => some (max x m)

/-- The present (non-NaT) pickup timestamps of a table, in row order. -/
def pickupTimes (df : List TripRecord) : List Nat :=
  df.filterMap (fun r => r.pickup)

/-- Calendar date of `df["pickup_datetime"].min().date()` (src/app.py line 139);
pandas `min` skips NaT, hence the minimum over the present timestamps. -/
def tableMinDate (df : List TripRecord) : Option Nat :=
  (natListMin (pickupTimes df)).map tsDate

/-- Calendar date of `df["pickup_datetime"].max().date()` (src/app.py line 140). -/
def tableMaxDate (df : List TripRecord) : Option Nat :=
  (natListMax (pickupTimes df)).map tsDate

/-- Number of rows whose pickup timestamp falls on calendar date `d` — the
size of the daily resampling bin for `d`.  Rows with a missing pickup belong
to no bin. -/
def countOnDay (df : List TripRecord) (d : Nat) : Nat :=
  (df.filter fun r =>
    match r.pickup with
    | some t => decide (tsDate t = d)
    | none => false).length

/-- The consecutive dates `lo, lo+1, ..., lo+n-1`. -/
def dateRange (lo : Nat) : Nat → List Nat
  | 0 => []
  | n + 1 => lo :: dateRange (lo + 1) n

/-- `aggregate_daily_trips` of src/app.py lines 42-43 (and the inline
`daily_trips` of line 173): `df.resample('D', on='pickup_datetime').size()`
produces one entry per calendar day from the day of the minimum pickup
timestamp to the day of the maximum, each holding the number of rows whose
pickup falls on that day (zero for gap days).  Rows with NaT pickup are
dropped by the resampling.  On a table with no present pickup the result is
empty. -/
def aggregate_daily_trips (df : List TripRecord) : List (Nat × Nat) :=
  match tableMinDate df, tableMaxDate df with
  | some lo, some hi => (dateRange lo (hi + 1 - lo)).map (fun d => (d, countOnDay df d))
  | _, _ => []

/-- The four scalar metrics of src/app.py lines 154-162. -/
structure SummaryMetrics where
  total_trips : Nat
  avg_distance : Option Rat
  avg_fare : Option Rat
  total_revenue : Rat
  deriving DecidableEq

/-- Arithmetic mean of a list of rationals; `none` models the NaN that
pandas `Series.mean()` produces on an empty column. -/
def ratMean (xs : List Rat) : Option Rat :=
  if xs.length = 0 then none else some (xs.sum / (xs.length : Rat))

/-- The metric block of src/app.py lines 154-162: `len(filtered_df)`,
`filtered_df['trip_miles'].mean()`, `filtered_df['base_passenger_fare'].mean()`,
`filtered_df['base_passenger_fare'].sum()` (pandas sum of an empty column
is 0).  None of the four raises on an empty table. -/
def summarize (df : List TripRecord) : SummaryMetrics :=
  { total_trips := df.length
    avg_distance := ratMean (df.map (fun r => r.trip_miles))
    avg_fare := ratMean (df.map (fun r => r.base_passenger_fare))
    total_revenue := (df.map (fun r => r.base_passenger_fare)).sum }

/-- `required_cols` of src/app.py line 128 — note it lists four columns;
`dispatching_base_num` is not among them. -/
def required_cols : List String :=
  ["pickup_datetime", "dropoff_datetime", "trip_miles", "base_passenger_fare"]

/-- `missing_cols` of src/app.py line 129. -/
def missing_cols (cols : List String) : List String :=
  required_cols.filter (fun c => !cols.contains c)

/-- The check of src/app.py lines 130-133: the run is halted (`st.stop()`)
exactly when `missing_cols` is non-empty, after reporting the missing names. -/
def schemaHalts (cols : List String) : Bool :=
  !(missing_cols cols).isEmpty

/-- The mutable `st.session_state` entries touched by `password_entered`
(src/app.py lines 57-63): the raw `"password"` widget value (absent = key
deleted) and the `"password_correct"` flag (absent before first comparison). -/
structure SessionState where
  password : Option String
  password_correct : Option Bool
  deriving DecidableEq

/-- `password_entered` of src/app.py lines 57-63.  On a successful comparison
the `"password"` key is deleted (`del st.session_state["password"]`); the
failure branch sets `password_correct := False` and does not delete the key. -/
def password_entered (secret : String) (s : SessionState) : SessionState :=
  match s.password with
  | some pw =>
    if pw = secret then { password := none, password_correct := some true }
    else { s with password_correct := some false }
  | none => s

/-- Floating-point storage precision of a column. -/
inductive FloatPrec where
  | f32
  | f64
  deriving DecidableEq

/-- A parquet file as seen by the loaders: its column names (in file order)
and the storage precision of each column. -/
structure RawFile where
  cols : List String
  dtypeOf : String → FloatPrec

/-- A loaded in-memory table: the columns materialised and their dtypes. -/
structure LoadedTable where
  cols : List String
  dtypeOf : String → FloatPrec

/-- `columns_to_use` of src/app.py lines 21-24. -/
def columns_to_use : List String :=
  ["pickup_datetime", "dropoff_datetime", "trip_miles", "base_passenger_fare",
   "dispatching_base_num"]

/-- `pd.read_parquet(path, columns=...)`: with `columns=None` every column of
the file is materialised at its stored precision; with an explicit column
list only the requested columns are materialised. -/
def read_parquet (f : RawFile) (columns : Option (List String)) : LoadedTable :=
  match columns with
  | none => { cols := f.cols, dtypeOf := f.dtypeOf }
  | some cs => { cols := cs.filter (fun c => f.cols.contains c), dtypeOf := f.dtypeOf }

/-- `load_data` of src/app.py lines 19-31: reads only `columns_to_use` and
casts `trip_miles` and `base_passenger_fare` to float32. -/
def load_data (f : RawFile) : LoadedTable :=
  let t := read_parquet f (some columns_to_use)
  { cols := t.cols
    dtypeOf := fun c =>
      if c = "trip_miles" ∨ c = "base_passenger_fare" then FloatPrec.f32 else t.dtypeOf c }

/-- `load_parquet_data` of src/app.py lines 94-99: `pd.read_parquet(file_path)`
with no column selection and no dtype conversion. -/
def load_parquet_data (f : RawFile) : LoadedTable :=
  read_parquet f none

/-- The table the dashboard consumes when the configured file exists:
src/app.py line 114 assigns `df = load_parquet_data(file_path)`; `load_data`
is never called in the script. -/
def dashboardTable (f : RawFile) : LoadedTable :=
  load_parquet_data f

/-- State of the memoization cache around `load_data`: an association list
from file path to the cached table and the time it was stored, plus a
counter of underlying file reads. -/
structure CacheState where
  entries : List (String × (List TripRecord × Nat))
  readCount : Nat
  deriving DecidableEq

/-- Modelled from the spec: the memoization wrapper `@st.cache_data(ttl=3600)`
on `load_data` (src/app.py line 18) is supplied by the external framework and
its implementation is not part of this repository.  Following the spec —
"result is cached by file path for up to 1 hour (TTL-based invalidation), so
repeated calls with the same path within the window return the same in-memory
table without re-reading the file" — a call first consults the cache entry
for the path; an entry younger than `ttl` seconds is returned as is, otherwise
the file is read (incrementing `readCount`) and the entry is (re)stored. -/
def cachedLoad (fs : String → List TripRecord) (ttl : Nat) (now : Nat) (path : String)
    (s : CacheState) : List TripRecord × CacheState :=
  match s.entries.lookup path with
  | some (tbl, storedAt) =>
    if now < storedAt + ttl then (tbl, s)
    else
      let t := fs path
      (t, { entries := (path, (t, now)) :: s.entries, readCount := s.readCount + 1 })
  | none =>
    let t := fs path
    (t, { entries := (path, (t, now)) :: s.entries, readCount := s.readCount + 1 })

/-- Pickup timestamp on 2023-01-01 (day 19358 since the epoch), 01:00:00. -/
def ts0101 : Nat := 19358 * secondsPerDay + 3600

/-- Pickup timestamp on 2023-01-02 (day 19359), 02:00:00. -/
def ts0102 : Nat := 19359 * secondsPerDay + 7200

/-- Pickup timestamp on 2023-01-05 (day 19362), 00:10:00. -/
def ts0105 : Nat := 19362 * secondsPerDay + 600

/-- Row (2023-01-01, 5.0 mi, $10) of the end-to-end scenario. -/
def trip1 : TripRecord :=
  { pickup := some ts0101, dropoff := some (ts0101 + 1200), trip_miles := 5,
    base_passenger_fare := 10, dispatching_base_num := "B02764" }

/-- Row (2023-01-02, 3.0 mi, $8) of the end-to-end scenario. -/
def trip2 : TripRecord :=
  { pickup := some ts0102, dropoff := some (ts0102 + 900), trip_miles := 3,
    base_passenger_fare := 8, dispatching_base_num := "B02875" }

/-- Row (2023-01-05, 1.0 mi, $4) of the end-to-end scenario. -/
def trip3 : TripRecord :=
  { pickup := some ts0105, dropoff := some (ts0105 + 300), trip_miles := 1,
    base_passenger_fare := 4, dispatching_base_num := "B02764" }

/-- The three-row table of the end-to-end scenario. -/
def scenarioTable : List TripRecord := [trip1, trip2, trip3]

/-- A row with a present pickup timestamp (2023-01-01). -/
def tripPresent : TripRecord :=
  { pickup := some ts0101, dropoff := some (ts0101 + 600), trip_miles := 2,
    base_passenger_fare := 5, dispatching_base_num := "B02764" }

/-- A row whose pickup timestamp is missing (NaT). -/
def tripNaT : TripRecord :=
  { pickup := none, dropoff := some (ts0101 + 600), trip_miles := 2,
    base_passenger_fare := 5, dispatching_base_num := "B02764" }

/-- A two-row table one of whose rows has a missing pickup timestamp. -/
def tableWithNaT : List TripRecord := [tripPresent, tripNaT]

/-- A parquet file carrying the five dashboard columns plus a sixth, all
stored at full (float64) precision. -/
def fileWithExtra : RawFile :=
  { cols := ["pickup_datetime", "dropoff_datetime", "trip_miles",
             "base_passenger_fare", "dispatching_base_num", "tips"],
    dtypeOf := fun _ => FloatPrec.f64 }

/-- `natListMin` is `none` exactly on the empty list. -/
theorem natListMin_eq_none {l : List Nat} : natListMin l = none ↔ l = [] := by
  cases l with
  | nil => simp [natListMin]
  | cons a l => simp only [natListMin]; split <;> simp

/-- `natListMax` is `none` exactly on the empty list. -/
theorem natListMax_eq_none {l : List Nat} : natListMax l = none ↔ l = [] := by
  cases l with
  | nil => simp [natListMax]
  | cons a l => simp only [natListMax]; split <;> simp

/-- The minimum returned by `natListMin` bounds every member from below. -/
theorem natListMin_le {l : List Nat} {m : Nat} (hm : natListMin l = some m) :
    ∀ x ∈ l, m ≤ x := by
  induction l generalizing m with
  | nil => simp [natListMin] at hm
  | cons a l ih =>
    intro x hx
    rcases List.mem_cons.mp hx with rfl | hx
    · cases h : natListMin l with
      | none => simp [natListMin, h] at hm; omega
      | some m' =>
        simp [natListMin, h] at hm
        have := Nat.min_le_left x m'
        omega
    · cases h : natListMin l with
      | none =>
        rw [natListMin_eq_none.mp h] at hx
        cases hx
      | some m' =>
        have := ih h x hx
        simp [natListMin, h] at hm
        have := Nat.min_le_right a m'
        omega

/-- The minimum returned by `natListMin` is a member of the list. -/
theorem natListMin_mem {l : List Nat} {m : Nat} (hm : natListMin l = some m) :
    m ∈ l := by
  induction l generalizing m with
  | nil => simp [natListMin] at hm
  | cons a l ih =>
    cases h : natListMin l with
    | none => simp [natListMin, h] at hm; simp [hm]
    | some m' =>
      simp [natListMin, h] at hm
      rcases min_choice a m' with hc | hc
      · have : m = a := by omega
        simp [this]
      · have : m = m' := by omega
        rw [this]
        exact List.mem_cons_of_mem a (ih h)

/-- Every member of the list is bounded above by `natListMax`. -/
theorem le_natListMax {l : List Nat} {m : Nat} (hm : natListMax l = some m) :
    ∀ x ∈ l, x ≤ m := by
  induction l generalizing m with
  | nil => simp [natListMax] at hm
  | cons a l ih =>
    intro x hx
    rcases List.mem_cons.mp hx with rfl | hx
    · cases h : natListMax l with
      | none => simp [natListMax, h] at hm; omega
      | some m' =>
        simp [natListMax, h] at hm
        have := Nat.le_max_left x m'
        omega
    · cases h : natListMax l with
      | none =>
        rw [natListMax_eq_none.mp h] at hx
        cases hx
      | some m' =>
        have := ih h x hx
        simp [natListMax, h] at hm
        have := Nat.le_max_right a m'
        omega

/-- The maximum returned by `natListMax` is a member of the list. -/
theorem natListMax_mem {l : List Nat} {m : Nat} (hm : natListMax l = some m) :
    m ∈ l := by
  induction l generalizing m with
  | nil => simp [natListMax] at hm
  | cons a l ih =>
    cases h : natListMax l with
    | none => simp [natListMax, h] at hm; simp [hm]
    | some m' =>
      simp [natListMax, h] at hm
      rcases max_choice a m' with hc | hc
      · have : m = a := by omega
        simp [this]
      · have : m = m' := by omega
        rw [this]
        exact List.mem_cons_of_mem a (ih h)

/-- Taking the calendar date of a timestamp is monotone. -/
theorem tsDate_mono {a b : Nat} (h : a ≤ b) : tsDate a ≤ tsDate b :=
  Nat.div_le_div_right h

/-- A present pickup timestamp of a row of the table occurs in `pickupTimes`. -/
theorem mem_pickupTimes {df : List TripRecord} {r : TripRecord} {t : Nat}
    (hr : r ∈ df) (ht : r.pickup = some t) : t ∈ pickupTimes df := by
  unfold pickupTimes
  exact List.mem_filterMap.mpr ⟨r, hr, ht⟩

/-- Membership in a consecutive date range. -/
theorem mem_dateRange {lo n d : Nat} : d ∈ dateRange lo n ↔ lo ≤ d ∧ d < lo + n := by
  induction n generalizing lo with
  | zero => simp [dateRange]
  | succ n ih =>
    simp only [dateRange, List.mem_cons, ih]
    omega

/-- A consecutive date range has no duplicates. -/
theorem dateRange_nodup (lo n : Nat) : (dateRange lo n).Nodup := by
  induction n generalizing lo with
  | zero => simp [dateRange]
  | succ n ih =>
    simp only [dateRange, List.nodup_cons]
    refine ⟨fun h => ?_, ih (lo + 1)⟩
    have := mem_dateRange.mp h
    omega

/-- A row with missing pickup contributes to no daily bin. -/
theorem countOnDay_cons_none {r : TripRecord} {df : List TripRecord}
    (h : r.pickup = none) : countOnDay (r :: df) = countOnDay df := by
  funext d
  simp [countOnDay, List.filter_cons, h]

/-- A row with a present pickup contributes to exactly the bin of its date. -/
theorem countOnDay_cons_some {r : TripRecord} {df : List TripRecord} {t : Nat}
    (h : r.pickup = some t) (d : Nat) :
    countOnDay (r :: df) d = (if tsDate t = d then 1 else 0) + countOnDay df d := by
  simp only [countOnDay, List.filter_cons, h]
  split
  · simp_all
    omega
  · simp_all

/-- `pickupTimes` skips a leading row with missing pickup. -/
theorem pickupTimes_cons_none {r : TripRecord} {df : List TripRecord}
    (h : r.pickup = none) : pickupTimes (r :: df) = pickupTimes df := by
  simp [pickupTimes, List.filterMap_cons, h]

/-- `pickupTimes` keeps a leading row with present pickup. -/
theorem pickupTimes_cons_some {r : TripRecord} {df : List TripRecord} {t : Nat}
    (h : r.pickup = some t) : pickupTimes (r :: df) = t :: pickupTimes df := by
  simp [pickupTimes, List.filterMap_cons, h]

/-- Sums of pointwise sums of naturals split. -/
theorem sum_map_add {α : Type} (f g : α → Nat) (l : List α) :
    (l.map fun a => f a + g a).sum = (l.map f).sum + (l.map g).sum := by
  induction l with
  | nil => simp
  | cons a l ih => simp [ih]; omega

/-- Over a duplicate-free list, the sum of the indicator of equality with `t`
is `1` or `0` according to membership of `t`. -/
theorem sum_indicator_nodup {t : Nat} {ds : List Nat} (hnd : ds.Nodup) :
    (ds.map fun d => if t = d then 1 else 0).sum = if t ∈ ds then 1 else 0 := by
  induction ds with
  | nil => simp
  | cons d ds ih =>
    rcases List.nodup_cons.mp hnd with ⟨hd, hnd'⟩
    by_cases ht : t = d
    · subst ht
      simp [ih hnd', hd]
    · simp [ht, ih hnd', List.mem_cons]

/-- Summing the daily bin sizes over any duplicate-free list of dates that
covers every present pickup date yields the number of rows with a present
pickup timestamp. -/
theorem sum_countOnDay (df : List TripRecord) (ds : List Nat) (hnd : ds.Nodup)
    (hcov : ∀ r ∈ df, ∀ t, r.pickup = some t → tsDate t ∈ ds) :
    (ds.map (countOnDay df)).sum = (pickupTimes df).length := by
  induction df with
  | nil =>
    have : ∀ d ∈ ds, countOnDay [] d = 0 := by intro d _; simp [countOnDay]
    rw [List.map_congr_left this]
    simp [pickupTimes]
  | cons r df ih =>
    have hcov' : ∀ r' ∈ df, ∀ t, r'.pickup = some t → tsDate t ∈ ds := by
      intro r' hr' t ht
      exact hcov r' (List.mem_cons_of_mem r hr') t ht
    cases hp : r.pickup with
    | none =>
      rw [countOnDay_cons_none hp, pickupTimes_cons_none hp]
      exact ih hcov'
    | some t =>
      have hmem : tsDate t ∈ ds := hcov r (List.mem_cons_self r df) t hp
      have hcongr : ∀ d ∈ ds, countOnDay (r :: df) d =
          (if tsDate t = d then 1 else 0) + countOnDay df d := by
        intro d _
        exact countOnDay_cons_some hp d
      rw [List.map_congr_left hcongr, sum_map_add, sum_indicator_nodup hnd,
        pickupTimes_cons_some hp, ih hcov']
      simp [hmem]
      omega

/-- C1: for a valid date interval, every row that `filter_data` returns has a
present pickup timestamp whose calendar date lies within the interval
(inclusive on both ends), and the output has no more rows than the input. -/
theorem filter_data_in_interval (df : List TripRecord) (start_date end_date : Nat)
    (_hse : start_date ≤ end_date) :
    (∀ r ∈ filter_data df start_date end_date,
      ∃ t, r.pickup = some t ∧ start_date ≤ tsDate t ∧ tsDate t ≤ end_date) ∧
    (filter_data df start_date end_date).length ≤ df.length := by
  constructor
  · intro r hr
    have hmem := List.mem_filter.mp hr
    cases hp : r.pickup with
    | none =>
      have := hmem.2
      simp [pickupInRange, hp] at this
    | some t =>
      have := hmem.2
      simp [pickupInRange, hp] at this
      exact ⟨t, rfl, this.1, this.2⟩
  · exact List.length_filter_le _ _

/-- Witness for C1 at the three-row scenario table and the interval
[2023-01-01, 2023-01-02]. -/
theorem filter_data_in_interval_inst :
    19358 ≤ 19359 ∧
    ((∀ r ∈ filter_data scenarioTable 19358 19359,
      ∃ t, r.pickup = some t ∧ 19358 ≤ tsDate t ∧ tsDate t ≤ 19359) ∧
    (filter_data scenarioTable 19358 19359).length ≤ scenarioTable.length) :=
  ⟨by decide, filter_data_in_interval scenarioTable 19358 19359 (by decide)⟩

/-- C10: a row whose pickup timestamp is missing (NaT) is excluded from the
output of `filter_data` for every interval — both inclusive comparisons of
the mask are false on a missing timestamp. -/
theorem filter_data_excludes_missing_pickup (df : List TripRecord)
    (start_date end_date : Nat) (r : TripRecord) (_hr : r ∈ df)
    (hp : r.pickup = none) : r ∉ filter_data df start_date end_date := by
  intro hmem
  have h := (List.mem_filter.mp hmem).2
  simp [pickupInRange, hp] at h

/-- Witness for C10: the NaT row of `tableWithNaT` is dropped even by an
interval covering the whole table. -/
theorem filter_data_excludes_missing_pickup_inst :
    tripNaT ∈ tableWithNaT ∧ tripNaT.pickup = none ∧
    tripNaT ∉ filter_data tableWithNaT 0 40000 :=
  ⟨by decide, rfl,
    filter_data_excludes_missing_pickup tableWithNaT 0 40000 tripNaT (by decide) rfl⟩

/-- C3: the metric block on an empty table produces zero total trips, zero
total revenue, and the "unavailable" value (the model of pandas NaN) for
both averages, raising no exception. -/
theorem summarize_empty_table :
    summarize [] =
      { total_trips := 0, avg_distance := none, avg_fare := none, total_revenue := 0 } := by
  rfl

/-- C4: on the three-row scenario table, filtering to
[2023-01-01, 2023-01-02] yields exactly two rows with average distance 4.0,
average fare 9.00 and total revenue 18.00, and the daily trip counts over
the full span 2023-01-01 .. 2023-01-05 are 1, 1, 0, 0, 1. -/
theorem scenario_metrics_and_daily_counts :
    (filter_data scenarioTable 19358 19359).length = 2 ∧
    summarize (filter_data scenarioTable 19358 19359) =
      { total_trips := 2, avg_distance := some 4, avg_fare := some 9, total_revenue := 18 } ∧
    aggregate_daily_trips scenarioTable =
      [(19358, 1), (19359, 1), (19360, 0), (19361, 0), (19362, 1)] := by
  refine ⟨by decide, ?_, by decide⟩
  have h : filter_data scenarioTable 19358 19359 = [trip1, trip2] := by decide
  rw [h]
  simp [summarize, ratMean, trip1, trip2]
  norm_num

/-- C9 counterexample: on a table containing a row with a missing pickup
timestamp, filtering to the full span [min pickup date, max pickup date]
returns fewer rows than the input, refuting the claim as stated for every
table. -/
theorem filter_full_span_not_all_rows :
    tableMinDate tableWithNaT = some 19358 ∧
    tableMaxDate tableWithNaT = some 19358 ∧
    (filter_data tableWithNaT 19358 19358).length ≠ tableWithNaT.length := by
  decide

/-- C9 amended: for a table all of whose rows have a present pickup
timestamp, filtering to the full span [min pickup date, max pickup date]
returns exactly as many rows as the input. -/
theorem filter_data_full_span_all_present (df : List TripRecord) (lo hi : Nat)
    (hall : ∀ r ∈ df, r.pickup.isSome)
    (hlo : tableMinDate df = some lo) (hhi : tableMaxDate df = some hi) :
    (filter_data df lo hi).length = df.length := by
  obtain ⟨tm, htm, hlo'⟩ := Option.map_eq_some'.mp hlo
  obtain ⟨tM, htM, hhi'⟩ := Option.map_eq_some'.mp hhi
  have hfil : filter_data df lo hi = df := by
    apply List.filter_eq_self.mpr
    intro r hr
    cases hp : r.pickup with
    | none =>
      have := hall r hr
      simp [hp] at this
    | some t =>
      have htmem : t ∈ pickupTimes df := mem_pickupTimes hr hp
      have h1 := tsDate_mono (natListMin_le htm t htmem)
      have h2 := tsDate_mono (le_natListMax htM t htmem)
      simp [pickupInRange, hp]
      omega
  rw [filter_data] at hfil ⊢
  rw [hfil]

/-- Witness for the amended C9 at the three-row scenario table. -/
theorem filter_data_full_span_all_present_inst :
    (∀ r ∈ scenarioTable, r.pickup.isSome) ∧
    tableMinDate scenarioTable = some 19358 ∧
    tableMaxDate scenarioTable = some 19362 ∧
    (filter_data scenarioTable 19358 19362).length = scenarioTable.length :=
  ⟨by decide, by decide, by decide,
    filter_data_full_span_all_present scenarioTable 19358 19362
      (by decide) (by decide) (by decide)⟩

/-- C2 counterexample: on a non-empty table containing a row with a missing
pickup timestamp, the daily counts sum to the number of rows with a present
pickup (1), not to the total row count (2), refuting the claim as stated
for every non-empty table. -/
theorem daily_counts_sum_not_total :
    tableWithNaT ≠ [] ∧
    ((aggregate_daily_trips tableWithNaT).map Prod.snd).sum = 1 ∧
    tableWithNaT.length = 2 ∧
    ((aggregate_daily_trips tableWithNaT).map Prod.snd).sum ≠ tableWithNaT.length := by
  decide

/-- C2 amended: whenever the table has a present pickup timestamp (so that
its min and max pickup dates exist), the daily series is dense — its dates
are exactly the calendar dates of [min pickup date, max pickup date], each
occurring exactly once (counts are naturals, hence ≥ 0) — and the counts sum
to the number of rows with a present pickup timestamp (the total row count
whenever no pickup is missing). -/
theorem aggregate_daily_trips_dense (df : List TripRecord) (lo hi : Nat)
    (hlo : tableMinDate df = some lo) (hhi : tableMaxDate df = some hi) :
    ((aggregate_daily_trips df).map Prod.fst).Nodup ∧
    (∀ d, d ∈ (aggregate_daily_trips df).map Prod.fst ↔ lo ≤ d ∧ d ≤ hi) ∧
    ((aggregate_daily_trips df).map Prod.snd).sum = (pickupTimes df).length := by
  obtain ⟨tm, htm, hlo'⟩ := Option.map_eq_some'.mp hlo
  obtain ⟨tM, htM, hhi'⟩ := Option.map_eq_some'.mp hhi
  have hlohi : lo ≤ hi := by
    have h1 : tm ∈ pickupTimes df := natListMin_mem htm
    have h2 := tsDate_mono (le_natListMax htM tm h1)
    omega
  have hagg : aggregate_daily_trips df =
      (dateRange lo (hi + 1 - lo)).map (fun d => (d, countOnDay df d)) := by
    unfold aggregate_daily_trips
    rw [hlo, hhi]
  have hfst : (aggregate_daily_trips df).map Prod.fst = dateRange lo (hi + 1 - lo) := by
    rw [hagg, List.map_map]
    exact List.map_id _
  have hsnd : (aggregate_daily_trips df).map Prod.snd =
      (dateRange lo (hi + 1 - lo)).map (countOnDay df) := by
    rw [hagg, List.map_map]
    rfl
  refine ⟨?_, ?_, ?_⟩
  · rw [hfst]
    exact dateRange_nodup _ _
  · intro d
    rw [hfst, mem_dateRange]
    omega
  · rw [hsnd]
    apply sum_countOnDay df _ (dateRange_nodup _ _)
    intro r hr t ht
    have htmem := mem_pickupTimes hr ht
    have h1 := tsDate_mono (natListMin_le htm t htmem)
    have h2 := tsDate_mono (le_natListMax htM t htmem)
    rw [mem_dateRange]
    omega

/-- Witness for the amended C2 at the three-row scenario table. -/
theorem aggregate_daily_trips_dense_inst :
    tableMinDate scenarioTable = some 19358 ∧
    tableMaxDate scenarioTable = some 19362 ∧
    (((aggregate_daily_trips scenarioTable).map Prod.fst).Nodup ∧
     (∀ d, d ∈ (aggregate_daily_trips scenarioTable).map Prod.fst ↔
        19358 ≤ d ∧ d ≤ 19362) ∧
     ((aggregate_daily_trips scenarioTable).map Prod.snd).sum =
        (pickupTimes scenarioTable).length) :=
  ⟨by decide, by decide,
    aggregate_daily_trips_dense scenarioTable 19358 19362 (by decide) (by decide)⟩

/-- C5: loading the same path twice, the second time within the 3600-second
TTL of the first, returns the identical in-memory table and performs only
one underlying file read. -/
theorem cachedLoad_second_within_ttl (fs : String → List TripRecord) (path : String)
    (t1 t2 : Nat) (_h1 : t1 ≤ t2) (h2 : t2 < t1 + 3600) :
    (cachedLoad fs 3600 t2 path (cachedLoad fs 3600 t1 path ⟨[], 0⟩).2).1 =
      (cachedLoad fs 3600 t1 path ⟨[], 0⟩).1 ∧
    (cachedLoad fs 3600 t2 path (cachedLoad fs 3600 t1 path ⟨[], 0⟩).2).2.readCount = 1 := by
  have hfirst : cachedLoad fs 3600 t1 path ⟨[], 0⟩ =
      (fs path, ⟨[(path, (fs path, t1))], 1⟩) := by
    simp [cachedLoad]
  rw [hfirst]
  simp [cachedLoad, List.lookup, h2]

/-- Witness for C5 at a concrete file system, path and pair of times 0 and
10 seconds. -/
theorem cachedLoad_second_within_ttl_inst :
    0 ≤ 10 ∧ 10 < 0 + 3600 ∧
    ((cachedLoad (fun _ => [trip1]) 3600 10 "data/Uber_cleaned_data.parquet"
        (cachedLoad (fun _ => [trip1]) 3600 0 "data/Uber_cleaned_data.parquet" ⟨[], 0⟩).2).1 =
      (cachedLoad (fun _ => [trip1]) 3600 0 "data/Uber_cleaned_data.parquet" ⟨[], 0⟩).1 ∧
    (cachedLoad (fun _ => [trip1]) 3600 10 "data/Uber_cleaned_data.parquet"
        (cachedLoad (fun _ => [trip1]) 3600 0 "data/Uber_cleaned_data.parquet" ⟨[], 0⟩).2).2.readCount = 1) :=
  ⟨by decide, by decide,
    cachedLoad_second_within_ttl (fun _ => [trip1]) "data/Uber_cleaned_data.parquet"
      0 10 (by decide) (by decide)⟩

/-- C6 counterexample: on a file with a sixth column stored at full
precision, the table the dashboard consumes still contains that column and
keeps `trip_miles` at full precision — the dashboard's loader is
`load_parquet_data`, which neither prunes columns nor downcasts. -/
theorem dashboard_loader_not_pruning :
    "tips" ∈ (dashboardTable fileWithExtra).cols ∧
    ¬ "tips" ∈ columns_to_use ∧
    (dashboardTable fileWithExtra).dtypeOf "trip_miles" = FloatPrec.f64 ∧
    ¬ (dashboardTable fileWithExtra).dtypeOf "trip_miles" = FloatPrec.f32 := by
  decide

/-- C6 amended: the table consumed by the dashboard is produced by
`load_parquet_data`, which reads every column of the file at its stored
precision; the separate loader `load_data` — defined but never called by the
dashboard — is the one that restricts to the five downstream columns and
downcasts the two numeric columns to float32. -/
theorem dashboard_loader_reads_all_columns (f : RawFile) :
    (dashboardTable f).cols = f.cols ∧
    (∀ c, (dashboardTable f).dtypeOf c = f.dtypeOf c) ∧
    (load_data f).cols = columns_to_use.filter (fun c => f.cols.contains c) ∧
    (load_data f).dtypeOf "trip_miles" = FloatPrec.f32 ∧
    (load_data f).dtypeOf "base_passenger_fare" = FloatPrec.f32 := by
  refine ⟨rfl, fun c => rfl, rfl, ?_, ?_⟩
  · simp [load_data]
  · simp [load_data]

/-- C7 counterexample: after a failed comparison the raw credential is still
present in the session state — only the success branch deletes it. -/
theorem password_retained_after_mismatch :
    (password_entered "s3cret"
      { password := some "wrong", password_correct := none }).password = some "wrong" ∧
    ¬ (password_entered "s3cret"
      { password := some "wrong", password_correct := none }).password = none := by
  decide

/-- C7 amended: the credential is removed from session state after a
successful comparison, but after a failed comparison it remains stored
unchanged. -/
theorem password_discarded_only_on_success (secret pw : String) (s : SessionState)
    (hpw : s.password = some pw) :
    (pw = secret → (password_entered secret s).password = none) ∧
    (pw ≠ secret → (password_entered secret s).password = some pw) := by
  constructor
  · intro he
    simp [password_entered, hpw, he]
  · intro hne
    simp [password_entered, hpw, hne]

/-- Witness for the amended C7 at a concrete state holding a wrong
credential. -/
theorem password_discarded_only_on_success_inst :
    (SessionState.mk (some "wrong") none).password = some "wrong" ∧
    ((("wrong" : String) = "s3cret" →
      (password_entered "s3cret" ⟨some "wrong", none⟩).password = none) ∧
    (("wrong" : String) ≠ "s3cret" →
      (password_entered "s3cret" ⟨some "wrong", none⟩).password = some "wrong")) :=
  ⟨rfl, password_discarded_only_on_success "s3cret" "wrong" ⟨some "wrong", none⟩ rfl⟩

/-- C8 counterexample: a table carrying only the four columns of
`required_cols` lacks `dispatching_base_num`, yet the schema check does not
halt the run — the source's `required_cols` does not list that column. -/
theorem schema_check_misses_dispatching_base :
    ¬ "dispatching_base_num" ∈
      (["pickup_datetime", "dropoff_datetime", "trip_miles",
        "base_passenger_fare"] : List String) ∧
    schemaHalts ["pickup_datetime", "dropoff_datetime", "trip_miles",
        "base_passenger_fare"] = false := by
  decide

/-- C8 amended: the run is halted exactly when one of the four columns of
`required_cols` (`pickup_datetime`, `dropoff_datetime`, `trip_miles`,
`base_passenger_fare`) is absent, and the reported list contains exactly the
absent required columns; `dispatching_base_num` is not checked. -/
theorem schema_check_four_columns (cols : List String) :
    (schemaHalts cols = true ↔ ∃ c ∈ required_cols, ¬ c ∈ cols) ∧
    (∀ c, c ∈ missing_cols cols ↔ c ∈ required_cols ∧ ¬ c ∈ cols) ∧
    ¬ "dispatching_base_num" ∈ required_cols := by
  refine ⟨?_, ?_, by decide⟩
  · simp [schemaHalts, missing_cols, List.isEmpty_iff, List.filter_eq_nil_iff]
  · intro c
    simp [missing_cols, List.mem_filter]
